import Mathlib

/-!
# recipe-helper: verification of the extraction/reconciliation/persistence core

Shallow embedding of the `recipe_ingest` package (the spec's CORE):
* `core/writer.py`   — filename sanitization, duplicate check, atomic write
* `core/service.py`  — ingredient normalization/comparison, markdown
  ingredient re-parsing, and the duplicate-decision pipeline
* `core/formatter.py`— YAML-frontmatter + markdown rendering
* `core/extractor.py`— text preprocessing, nutrition reconciliation,
  recipe assembly
* `llm/client.py`    — the outcome classification of `OllamaClient.generate`

Python strings are modelled as `List Char` (a Python `str` is a sequence of
code points).  Python floats are modelled as `ℚ`.  The two LLM calls and the
regex fallback heuristics operate on free text through an external model; as
in the source they are collaborators, their outcomes enter the embedded
functions as explicit parameters.
-/

/-! ## Python string primitives -/

/-- The Python `\s` character class restricted to ASCII (space, tab, newline,
carriage return, vertical tab, form feed); this is what `re` matches on the
repository's inputs and what `str.strip()` removes. -/
def pyIsSpace (c : Char) : Bool :=
  c = ' ' || c = '\t' || c = '\n' || c = '\r' || c = '\x0b' || c = '\x0c'

/-- Python `str.strip()`: drop whitespace from both ends. -/
def pyStrip (l : List Char) : List Char :=
  ((l.dropWhile pyIsSpace).reverse.dropWhile pyIsSpace).reverse

theorem dropWhile_length_le (p : Char → Bool) (l : List Char) :
    (l.dropWhile p).length ≤ l.length := by
  induction l with
  | nil => simp [List.dropWhile]
  | cons c cs ih =>
    by_cases h : p c
    · simp only [List.dropWhile, h]
      exact Nat.le_succ_of_le ih
    · simp [List.dropWhile, h]

theorem pyStrip_length_le (l : List Char) : (pyStrip l).length ≤ l.length := by
  unfold pyStrip
  calc ((l.dropWhile pyIsSpace).reverse.dropWhile pyIsSpace).reverse.length
      = ((l.dropWhile pyIsSpace).reverse.dropWhile pyIsSpace).length := by
        simp
    _ ≤ (l.dropWhile pyIsSpace).reverse.length := dropWhile_length_le _ _
    _ = (l.dropWhile pyIsSpace).length := by simp
    _ ≤ l.length := dropWhile_length_le _ _

/-! ## `VaultWriter._sanitize_filename` (writer.py lines 124-153) -/

/-- The characters removed by `re.sub(r'[<>:"/\\|?*]', "", title)`. -/
def invalidFilenameChar (c : Char) : Bool :=
  c = '<' || c = '>' || c = ':' || c = '"' || c = '/' || c = '\\' ||
  c = '|' || c = '?' || c = '*'

/-- Worker for `re.sub(r"\s+", " ", s)`: the flag records whether the previous
character belonged to a whitespace run already replaced by one space. -/
def collapseWSAux : Bool → List Char → List Char
  | _, [] => []
  | prev, c :: cs =>
    if pyIsSpace c then
      if prev then collapseWSAux true cs else ' ' :: collapseWSAux true cs
    else c :: collapseWSAux false cs

/-- `re.sub(r"\s+", " ", s)`: each maximal whitespace run becomes one space. -/
def collapseWS (l : List Char) : List Char := collapseWSAux false l

/-- `VaultWriter._sanitize_filename`: strip the invalid characters, collapse
whitespace, trim, cap at 200 characters (re-trimming after the cut exactly as
`sanitized[:max_length].strip()` does), and substitute `"untitled_recipe"` for
an empty result. -/
def sanitize_filename (title : List Char) : List Char :=
  let s1 := title.filter (fun c => !invalidFilenameChar c)
  let s2 := collapseWS s1
  let s3 := pyStrip s2
  let s4 := if s3.length > 200 then pyStrip (s3.take 200) else s3
  if s4 = [] then "untitled_recipe".data else s4

/-! ## `_normalize_ingredient` / `_compare_ingredients` (service.py lines 30-97) -/

/-- `_normalize_ingredient`: `ingredient.lower().strip()` (ASCII lowering, as
`Char.toLower`; the repository's ingredients are ASCII text). -/
def normalize_ingredient (l : List Char) : List Char :=
  pyStrip (l.map Char.toLower)

/-- `_compare_ingredients`: normalize both lists, sort them (Python `sorted`
uses the lexicographic string order) and compare for equality. -/
def compare_ingredients (l1 l2 : List (List Char)) : Bool :=
  decide (List.insertionSort (· ≤ ·) (l1.map normalize_ingredient)
        = List.insertionSort (· ≤ ·) (l2.map normalize_ingredient))

theorem compare_ingredients_iff_perm (l1 l2 : List (List Char)) :
    compare_ingredients l1 l2 = true ↔
      (l1.map normalize_ingredient).Perm (l2.map normalize_ingredient) := by
  unfold compare_ingredients
  rw [decide_eq_true_iff]
  constructor
  · intro h
    exact (List.perm_insertionSort _ _).symm.trans
      (h ▸ List.perm_insertionSort (· ≤ ·) (l2.map normalize_ingredient))
  · intro h
    exact List.eq_of_perm_of_sorted
      ((List.perm_insertionSort _ _).trans
        (h.trans (List.perm_insertionSort _ _).symm))
      (List.sorted_insertionSort _ _) (List.sorted_insertionSort _ _)

/-- Claim C4: duplicate ingredient-equality holds iff the two lists, after
normalizing each element by lowercasing and trimming, are equal as multisets
(order-independent, duplicates counted with multiplicity); `["a","b"]` equals
`["b","a"]` but not `["a","b","b"]`. -/
theorem C4_compare_ingredients_multiset :
    (∀ l1 l2 : List (List Char),
      compare_ingredients l1 l2 = true ↔
        ((l1.map normalize_ingredient : Multiset (List Char))
          = (l2.map normalize_ingredient : Multiset (List Char)))) ∧
    compare_ingredients ["a".data, "b".data] ["b".data, "a".data] = true ∧
    compare_ingredients ["a".data, "b".data] ["a".data, "b".data, "b".data] = false := by
  refine ⟨fun l1 l2 => ?_, ?_, ?_⟩
  · rw [compare_ingredients_iff_perm, Multiset.coe_eq_coe]
  · decide
  · decide

/-- Claim C7: the sanitized filename always has length at most 200, is never
empty, and sanitizing `"***"` yields exactly `"untitled_recipe"`. -/
theorem C7_sanitize_filename_bounds :
    (∀ t : List Char,
      (sanitize_filename t).length ≤ 200 ∧ sanitize_filename t ≠ []) ∧
    sanitize_filename "***".data = "untitled_recipe".data := by
  refine ⟨fun t => ?_, by decide⟩
  have h : ∀ s3 : List Char,
      (let s4 := if s3.length > 200 then pyStrip (s3.take 200) else s3
       let r := if s4 = [] then "untitled_recipe".data else s4
       r.length ≤ 200 ∧ r ≠ []) := by
    intro s3
    have h4 : (if s3.length > 200 then pyStrip (s3.take 200) else s3).length
        ≤ 200 := by
      by_cases hlen : s3.length > 200
      · rw [if_pos hlen]
        calc (pyStrip (s3.take 200)).length ≤ (s3.take 200).length :=
              pyStrip_length_le _
          _ ≤ 200 := by simp [List.length_take]
      · rw [if_neg hlen]
        exact Nat.le_of_not_lt hlen
    by_cases he : (if s3.length > 200 then pyStrip (s3.take 200) else s3) = []
    · simp only [he, if_pos]
      exact ⟨by decide, by decide⟩
    · simp only [if_neg he]
      exact ⟨h4, he⟩
  exact h (pyStrip (collapseWS (t.filter (fun c => !invalidFilenameChar c))))

/-! ## `RecipeExtractor._preprocess_text` (extractor.py lines 339-388)

The source applies, in order:
1. `re.sub(r"[ \t]+", " ", text)`
2. `re.sub(r"\n{3,}", "\n\n", text)`
3. `re.sub(r" *\n *", "\n", text)`
4. `re.sub(r"#\w+", "", text)`
5. `re.sub(r"@\w+", "", text)`
6. `re.sub(r"\.{3,}", "...", text)`
7. `re.sub(r"!{2,}", "!", text)`
8. `text.strip()`
9. truncation at 5000 characters with a sentence/line-boundary search.

Each substitution is embedded as a character-list transducer equivalent to the
regex pass (leftmost, greedy matching over the respective one-character
classes). -/

def isHorizWS (c : Char) : Bool := c = ' ' || c = '\t'

/-- Worker for step 1: each maximal `[ \t]` run becomes one space. -/
def collapseHWSAux : Bool → List Char → List Char
  | _, [] => []
  | prev, c :: cs =>
    if isHorizWS c then
      if prev then collapseHWSAux true cs else ' ' :: collapseHWSAux true cs
    else c :: collapseHWSAux false cs

def collapseHWS (l : List Char) : List Char := collapseHWSAux false l

/-- Worker for step 2, `re.sub(r"\n{3,}", "\n\n", s)`: keep the first two
newlines of each maximal newline run (a run of n ≥ 3 newlines becomes exactly
two, shorter runs are untouched); `k` counts the newlines of the current run
already seen. -/
def collapseNLAux : Nat → List Char → List Char
  | _, [] => []
  | k, c :: cs =>
    if c = '\n' then
      if 2 ≤ k then collapseNLAux (k + 1) cs
      else '\n' :: collapseNLAux (k + 1) cs
    else c :: collapseNLAux 0 cs

def collapseNL (l : List Char) : List Char := collapseNLAux 0 l

/-- One direction of step 3, `re.sub(r" *\n *", "\n", s)`: drop the spaces
that directly follow a newline (possibly through other dropped spaces). -/
def dropSpacesAfterNLAux : Bool → List Char → List Char
  | _, [] => []
  | afterNL, c :: cs =>
    if c = '\n' then '\n' :: dropSpacesAfterNLAux true cs
    else if c = ' ' && afterNL then dropSpacesAfterNLAux true cs
    else c :: dropSpacesAfterNLAux false cs

/-- Step 3: a space-run adjacent to a newline on either side is removed; run
the one-directional pass forwards and once on the reversed list. -/
def stripSpacesAroundNL (l : List Char) : List Char :=
  (dropSpacesAfterNLAux false (dropSpacesAfterNLAux false l).reverse).reverse

/-- Python `\w` on the repository's ASCII inputs. -/
def wordChar (c : Char) : Bool := c.isAlphanum || c = '_'

/-- States of the `#\w+` / `@\w+` removal machine: `norm` copies, `pending`
holds a just-seen marker whose fate depends on the next character, `swall`
consumes the word characters of a matched token. -/
inductive TagState | norm | pending | swall

/-- Steps 4 and 5, `re.sub(r"#\w+", "", s)` and `re.sub(r"@\w+", "", s)`:
remove a marker followed by one or more word characters; a lone marker is
kept. -/
def removeTagsAux (m : Char) : TagState → List Char → List Char
  | .norm, [] => []
  | .pending, [] => [m]
  | .swall, [] => []
  | .norm, c :: cs =>
    if c = m then removeTagsAux m .pending cs
    else c :: removeTagsAux m .norm cs
  | .pending, c :: cs =>
    if wordChar c then removeTagsAux m .swall cs
    else if c = m then m :: removeTagsAux m .pending cs
    else m :: c :: removeTagsAux m .norm cs
  | .swall, c :: cs =>
    if wordChar c then removeTagsAux m .swall cs
    else if c = m then removeTagsAux m .pending cs
    else c :: removeTagsAux m .norm cs

def removeTags (m : Char) (l : List Char) : List Char :=
  removeTagsAux m .norm l

/-- Step 6, `re.sub(r"\.{3,}", "...", s)`: keep the first three dots of each
maximal dot run. -/
def collapseDotsAux : Nat → List Char → List Char
  | _, [] => []
  | k, c :: cs =>
    if c = '.' then
      if 3 ≤ k then collapseDotsAux (k + 1) cs
      else '.' :: collapseDotsAux (k + 1) cs
    else c :: collapseDotsAux 0 cs

def collapseDots (l : List Char) : List Char := collapseDotsAux 0 l

/-- Step 7, `re.sub(r"!{2,}", "!", s)`: keep the first bang of each maximal
bang run. -/
def collapseBangsAux : Bool → List Char → List Char
  | _, [] => []
  | prev, c :: cs =>
    if c = '!' then
      if prev then collapseBangsAux true cs else '!' :: collapseBangsAux true cs
    else c :: collapseBangsAux false cs

def collapseBangs (l : List Char) : List Char := collapseBangsAux false l

/-- Python `str.rfind` for a single character: index of the last occurrence. -/
def pyRfind (c : Char) : List Char → Option Nat
  | [] => none
  | d :: ds =>
    match pyRfind c ds with
    | some i => some (i + 1)
    | none => if d = c then some 0 else none

/-- Step 9 (extractor.py lines 367-387): if the text exceeds
`MAX_INPUT_LENGTH = 5000`, cut at 5000 and back up to the last `.` or `\n`
when that boundary lies past 80% of the budget (`cutoff > 4000`). -/
def truncateText (l : List Char) : List Char :=
  if l.length > 5000 then
    let truncated := l.take 5000
    let lastPeriod : Int := match pyRfind '.' truncated with
      | some i => (i : Int)
      | none => -1
    let lastNewline : Int := match pyRfind '\n' truncated with
      | some i => (i : Int)
      | none => -1
    let cutoff := max lastPeriod lastNewline
    if cutoff > 4000 then truncated.take (cutoff.toNat + 1) else truncated
  else l

/-- `RecipeExtractor._preprocess_text`: the composite of steps 1-9 (an empty
input is returned unchanged, as `if not text: return text`). -/
def preprocess_text (l : List Char) : List Char :=
  if l = [] then l
  else
    truncateText (pyStrip (collapseBangs (collapseDots (removeTags '@'
      (removeTags '#' (stripSpacesAroundNL (collapseNL (collapseHWS l))))))))

/-- Run-checking automaton: `true` iff the list contains no run of three or
more consecutive newlines; `k` counts the consecutive newlines just seen. -/
def tripleFreeAux : Nat → List Char → Bool
  | _, [] => true
  | k, c :: cs =>
    if c = '\n' then
      if 2 ≤ k then false else tripleFreeAux (k + 1) cs
    else tripleFreeAux 0 cs

def tripleFree (l : List Char) : Bool := tripleFreeAux 0 l

theorem tripleFreeAux_append_triple :
    ∀ (s t : List Char) (j : Nat),
      tripleFreeAux j (s ++ '\n' :: '\n' :: '\n' :: t) = false := by
  intro s
  induction s with
  | nil =>
    intro t j
    simp only [List.nil_append, tripleFreeAux, if_pos rfl]
    split_ifs <;> first | rfl | omega
  | cons a s ih =>
    intro t j
    simp only [List.cons_append, tripleFreeAux]
    split_ifs <;> first | rfl | apply ih

theorem collapseNLAux_tripleFree :
    ∀ (l : List Char) (k j : Nat), j ≤ k → j ≤ 2 →
      tripleFreeAux j (collapseNLAux k l) = true := by
  intro l
  induction l with
  | nil => intro k j _ _; rfl
  | cons c cs ih =>
    intro k j hjk hj2
    by_cases hc : c = '\n'
    · by_cases hk : 2 ≤ k
      · simp only [collapseNLAux, hc, if_pos rfl, if_pos hk]
        exact ih (k + 1) j (Nat.le_succ_of_le hjk) hj2
      · simp only [collapseNLAux, hc, if_pos rfl, if_neg hk]
        have hj : ¬ 2 ≤ j := fun h => hk (le_trans h hjk)
        simp only [tripleFreeAux, if_pos rfl, if_neg hj]
        exact ih (k + 1) (j + 1) (Nat.succ_le_succ hjk) (by omega)
    · simp only [collapseNLAux, if_neg hc, tripleFreeAux]
      exact ih 0 0 (le_refl 0) (by omega)

theorem tripleFree_not_infix {l : List Char}
    (h : ['\n', '\n', '\n'] <:+: l) : tripleFree l = false := by
  obtain ⟨s, t, rfl⟩ := h
  show tripleFreeAux 0 (s ++ ['\n', '\n', '\n'] ++ t) = false
  rw [List.append_assoc]
  exact tripleFreeAux_append_triple s t 0

/-- Claim C8 (amended): the text produced by the newline-collapsing pass
(`re.sub(r"\n{3,}", "\n\n", ...)`, step 2 of `_preprocess_text`) never contains
a run of three or more consecutive newlines; the later passes of the
preprocessor can reintroduce such runs (see the counterexample). -/
theorem C8_collapseNL_no_triple_newline (l : List Char) :
    ¬ (['\n', '\n', '\n'] <:+: collapseNL l) := by
  intro h
  have hfalse : tripleFreeAux 0 (collapseNLAux 0 l) = false := tripleFree_not_infix h
  have htrue : tripleFreeAux 0 (collapseNLAux 0 l) = true :=
    collapseNLAux_tripleFree l 0 0 (le_refl 0) (by omega)
  rw [hfalse] at htrue
  exact Bool.false_ne_true htrue

/-- Claim C8 is false as stated: on the input `"a\n \n \nb"` the preprocessor
first collapses nothing (no 3-newline run exists), then the
space-around-newline pass merges the blank lines, so the output
`"a\n\n\nb"` contains a run of three consecutive newlines. -/
theorem C8_counterexample :
    preprocess_text "a\n \n \nb".data = "a\n\n\nb".data ∧
    (['\n', '\n', '\n'] <:+: preprocess_text "a\n \n \nb".data) := by
  constructor
  · decide
  · exact ⟨"a".data, "b".data, by decide⟩


/-! ## Data model (models/recipe.py)

`Recipe`/`RecipeMetadata`/`MacroNutrients` as in the pydantic models; the
`created` timestamp is carried as its ISO-8601 rendering, which is all the
formatter uses. -/

structure MacroNutrients where
  carbs : ℚ
  protein : ℚ
  fat : ℚ
  deriving DecidableEq

structure RecipeMetadata where
  title : List Char
  prep_time : Option (List Char) := none
  cook_time : Option (List Char) := none
  cuisine : Option (List Char) := none
  url : Option (List Char) := none
  main_ingredient : Option (List Char) := none
  calories_per_serving : Option ℚ := none
  macros : Option MacroNutrients := none
  servings : Option Int := none
  created : List Char := []
  deriving DecidableEq

structure Recipe where
  metadata : RecipeMetadata
  ingredients : List (List Char)
  instructions : List (List Char)
  notes : Option (List Char) := none
  deriving DecidableEq

/-! ## `MarkdownFormatter` (formatter.py)

`_format_frontmatter` builds an insertion-ordered dict and renders it with
`yaml.dump(..., default_flow_style=False, sort_keys=False)`, which preserves
insertion order.  The dict is embedded as an ordered association list; the
optional fields are guarded by Python truthiness (`if value:`), so `None`,
`""`, `0` and `0.0` are all omitted. -/

inductive YVal
  | s (v : List Char)
  | i (v : Int)
  | f (v : ℚ)
  | m (entries : List (String × ℚ))

/-- One `if value:`-guarded string entry of `_format_frontmatter`. -/
def optStrEntry (key : String) (v : Option (List Char)) : List (String × YVal) :=
  match v with
  | some s => if s = [] then [] else [(key, YVal.s s)]
  | none => []

/-- `if recipe.metadata.url:` — a pydantic `HttpUrl` object is always truthy,
so presence alone decides. -/
def urlEntry (v : Option (List Char)) : List (String × YVal) :=
  match v with
  | some u => [("url", YVal.s u)]
  | none => []

/-- `if recipe.metadata.servings:` — `0` is falsy. -/
def servingsEntry (v : Option Int) : List (String × YVal) :=
  match v with
  | some n => if n = 0 then [] else [("servings", YVal.i n)]
  | none => []

/-- `if recipe.metadata.calories_per_serving:` — `0.0` is falsy. -/
def caloriesEntry (v : Option ℚ) : List (String × YVal) :=
  match v with
  | some q => if q = 0 then [] else [("calories_per_serving", YVal.f q)]
  | none => []

/-- `if recipe.metadata.macros:` — a `MacroNutrients` model instance is always
truthy, and all three fields are emitted. -/
def macrosEntry (v : Option MacroNutrients) : List (String × YVal) :=
  match v with
  | some m => [("macros", YVal.m
      [("carbs", m.carbs), ("protein", m.protein), ("fat", m.fat)])]
  | none => []

/-- `MarkdownFormatter._format_frontmatter`'s dict, in insertion order
(formatter.py lines 45-75). -/
def frontmatterEntries (r : Recipe) : List (String × YVal) :=
  ("title", YVal.s r.metadata.title)
    :: (optStrEntry "prep_time" r.metadata.prep_time
      ++ optStrEntry "cook_time" r.metadata.cook_time
      ++ optStrEntry "cuisine" r.metadata.cuisine
      ++ urlEntry r.metadata.url
      ++ optStrEntry "main_ingredient" r.metadata.main_ingredient
      ++ servingsEntry r.metadata.servings
      ++ caloriesEntry r.metadata.calories_per_serving
      ++ macrosEntry r.metadata.macros
      ++ [("created", YVal.s r.metadata.created)])

/-- The fixed frontmatter key order of the spec (§4.7). -/
def frontmatterKeyOrder : List String :=
  ["title", "prep_time", "cook_time", "cuisine", "url", "main_ingredient",
   "servings", "calories_per_serving", "macros", "created"]

theorem mem_map_fst_optStrEntry {k' k : String} {v : Option (List Char)} :
    k' ∈ (optStrEntry k v).map Prod.fst ↔
      (k' = k ∧ ∃ s, v = some s ∧ s ≠ []) := by
  cases v with
  | none => simp [optStrEntry]
  | some s =>
    by_cases h : s = [] <;> simp [optStrEntry, h]

theorem mem_map_fst_urlEntry {k' : String} {v : Option (List Char)} :
    k' ∈ (urlEntry v).map Prod.fst ↔ (k' = "url" ∧ v.isSome) := by
  cases v <;> simp [urlEntry]

theorem mem_map_fst_servingsEntry {k' : String} {v : Option Int} :
    k' ∈ (servingsEntry v).map Prod.fst ↔
      (k' = "servings" ∧ ∃ n, v = some n ∧ n ≠ 0) := by
  cases v with
  | none => simp [servingsEntry]
  | some n => by_cases h : n = 0 <;> simp [servingsEntry, h]

theorem mem_map_fst_caloriesEntry {k' : String} {v : Option ℚ} :
    k' ∈ (caloriesEntry v).map Prod.fst ↔
      (k' = "calories_per_serving" ∧ ∃ q, v = some q ∧ q ≠ 0) := by
  cases v with
  | none => simp [caloriesEntry]
  | some q => by_cases h : q = 0 <;> simp [caloriesEntry, h]

theorem mem_map_fst_macrosEntry {k' : String} {v : Option MacroNutrients} :
    k' ∈ (macrosEntry v).map Prod.fst ↔ (k' = "macros" ∧ v.isSome) := by
  cases v <;> simp [macrosEntry]

theorem map_fst_optStrEntry_sublist (k : String) (v : Option (List Char)) :
    ((optStrEntry k v).map Prod.fst).Sublist [k] := by
  cases v with
  | none => simp [optStrEntry]
  | some s =>
    by_cases h : s = [] <;> simp [optStrEntry, h]

theorem map_fst_urlEntry_sublist (v : Option (List Char)) :
    ((urlEntry v).map Prod.fst).Sublist ["url"] := by
  cases v <;> simp [urlEntry]

theorem map_fst_servingsEntry_sublist (v : Option Int) :
    ((servingsEntry v).map Prod.fst).Sublist ["servings"] := by
  cases v with
  | none => simp [servingsEntry]
  | some n => by_cases h : n = 0 <;> simp [servingsEntry, h]

theorem map_fst_caloriesEntry_sublist (v : Option ℚ) :
    ((caloriesEntry v).map Prod.fst).Sublist ["calories_per_serving"] := by
  cases v with
  | none => simp [caloriesEntry]
  | some q => by_cases h : q = 0 <;> simp [caloriesEntry, h]

theorem map_fst_macrosEntry_sublist (v : Option MacroNutrients) :
    ((macrosEntry v).map Prod.fst).Sublist ["macros"] := by
  cases v <;> simp [macrosEntry]

/-- Claim C5 (amended): the frontmatter lists its keys in the fixed order
title, prep_time, cook_time, cuisine, url, main_ingredient, servings,
calories_per_serving, macros, created; title and created are always present,
and each optional key is present exactly when its value is Python-truthy —
i.e. present and, for strings, non-empty, for servings, non-zero, and for
calories_per_serving, non-zero (so a recipe with calories_per_serving = 0.0
omits that key, contrary to the original claim). -/
theorem C5_frontmatter_key_order (r : Recipe) :
    ((frontmatterEntries r).map Prod.fst).Sublist frontmatterKeyOrder ∧
    "title" ∈ (frontmatterEntries r).map Prod.fst ∧
    "created" ∈ (frontmatterEntries r).map Prod.fst ∧
    ("prep_time" ∈ (frontmatterEntries r).map Prod.fst ↔
      ∃ s, r.metadata.prep_time = some s ∧ s ≠ []) ∧
    ("cook_time" ∈ (frontmatterEntries r).map Prod.fst ↔
      ∃ s, r.metadata.cook_time = some s ∧ s ≠ []) ∧
    ("cuisine" ∈ (frontmatterEntries r).map Prod.fst ↔
      ∃ s, r.metadata.cuisine = some s ∧ s ≠ []) ∧
    ("url" ∈ (frontmatterEntries r).map Prod.fst ↔ r.metadata.url.isSome) ∧
    ("main_ingredient" ∈ (frontmatterEntries r).map Prod.fst ↔
      ∃ s, r.metadata.main_ingredient = some s ∧ s ≠ []) ∧
    ("servings" ∈ (frontmatterEntries r).map Prod.fst ↔
      ∃ n, r.metadata.servings = some n ∧ n ≠ 0) ∧
    ("calories_per_serving" ∈ (frontmatterEntries r).map Prod.fst ↔
      ∃ q, r.metadata.calories_per_serving = some q ∧ q ≠ 0) ∧
    ("macros" ∈ (frontmatterEntries r).map Prod.fst ↔
      r.metadata.macros.isSome) := by
  refine ⟨?_, ?_, ?_, ?_, ?_, ?_, ?_, ?_, ?_, ?_, ?_⟩
  · simp only [frontmatterEntries, List.map_cons, List.map_append, List.map_nil]
    refine List.Sublist.cons₂ _ ?_
    show List.Sublist _
      (["prep_time"] ++ ["cook_time"] ++ ["cuisine"] ++ ["url"] ++
       ["main_ingredient"] ++ ["servings"] ++ ["calories_per_serving"] ++
       ["macros"] ++ ["created"])
    refine List.Sublist.append ?_ (List.Sublist.refl ["created"])
    refine List.Sublist.append ?_ (map_fst_macrosEntry_sublist _)
    refine List.Sublist.append ?_ (map_fst_caloriesEntry_sublist _)
    refine List.Sublist.append ?_ (map_fst_servingsEntry_sublist _)
    refine List.Sublist.append ?_ (map_fst_optStrEntry_sublist _ _)
    refine List.Sublist.append ?_ (map_fst_urlEntry_sublist _)
    refine List.Sublist.append ?_ (map_fst_optStrEntry_sublist _ _)
    exact List.Sublist.append (map_fst_optStrEntry_sublist _ _)
      (map_fst_optStrEntry_sublist _ _)
  all_goals
    simp only [frontmatterEntries, List.map_cons, List.map_append, List.map_nil,
      List.mem_cons, List.mem_append, List.mem_singleton,
      mem_map_fst_optStrEntry, mem_map_fst_urlEntry, mem_map_fst_servingsEntry,
      mem_map_fst_caloriesEntry, mem_map_fst_macrosEntry,
      List.not_mem_nil]
  all_goals simp

/-- A recipe whose nutrition calculation degraded to the 0.0 defaults: its
calories_per_serving is present and equals 0.0. -/
def exampleRecipeZeroCal : Recipe :=
  { metadata :=
      { title := "T".data
        calories_per_serving := some 0
        macros := some ⟨0, 0, 0⟩
        servings := some 1
        created := "2024-01-01T00:00:00".data }
    ingredients := ["1 cup flour".data]
    instructions := ["Mix".data] }

/-- Claim C5 is false as stated: a recipe with calories_per_serving present
and equal to 0.0 does NOT get a calories_per_serving frontmatter key, because
`_format_frontmatter` guards it with Python truthiness (`if value:`) and 0.0
is falsy. -/
theorem C5_counterexample :
    exampleRecipeZeroCal.metadata.calories_per_serving = some 0 ∧
    "calories_per_serving" ∉ (frontmatterEntries exampleRecipeZeroCal).map Prod.fst := by
  constructor
  · rfl
  · decide

/-- Scalar rendering of a float in the `yaml.dump` output: an integral value
prints as `n.0` (the repr of a Python float).  Non-integral values get a
placeholder rendering; no theorem depends on the digits — the parser theorems
constrain the frontmatter text only through the absence of `##`. -/
def renderFloat (q : ℚ) : List Char :=
  if q.den = 1 then (toString q.num).data ++ ".0".data
  else (toString q.num).data ++ "/".data ++ (toString q.den).data

/-- One line of `yaml.dump(metadata_dict, default_flow_style=False,
sort_keys=False)` output: `key: value\n` for scalars (plain style; the
formatter's keys are plain and its strings are recipe text), and a nested
2-space-indented block for the macros map. -/
def yamlRenderEntry : String × YVal → List Char
  | (k, YVal.s v) => k.data ++ ": ".data ++ v ++ ['\n']
  | (k, YVal.i v) => k.data ++ ": ".data ++ (toString v).data ++ ['\n']
  | (k, YVal.f v) => k.data ++ ": ".data ++ renderFloat v ++ ['\n']
  | (k, YVal.m es) => k.data ++ ":".data ++ ['\n'] ++
      (es.map (fun e =>
        "  ".data ++ e.1.data ++ ": ".data ++ renderFloat e.2 ++ ['\n'])).flatten

def yamlRender (entries : List (String × YVal)) : List Char :=
  (entries.map yamlRenderEntry).flatten

/-- 1-based numbering of the instruction steps
(`enumerate(recipe.instructions, 1)`). -/
def numberLines : Nat → List (List Char) → List Char
  | _, [] => []
  | k, i :: is =>
    (toString k).data ++ ". ".data ++ i ++ ['\n'] ++ numberLines (k + 1) is

/-- The bullet list of the Ingredients section: one `- <ingredient>` line per
ingredient, in input order (formatter.py lines 93-95). -/
def ingredientBullets (is : List (List Char)) : List Char :=
  (is.map (fun i => "- ".data ++ i ++ ['\n'])).flatten

/-- The optional Notes section (`if recipe.notes:` — empty notes are falsy
and omitted). -/
def notesSection (notes : Option (List Char)) : List Char :=
  match notes with
  | some n => if n = [] then [] else "\n## Notes\n\n".data ++ n ++ ['\n']
  | none => []

/-- `MarkdownFormatter._format_body` (formatter.py lines 80-107). -/
def format_body (r : Recipe) : List Char :=
  "# ".data ++ r.metadata.title ++ "\n\n".data
  ++ "## Ingredients\n\n".data
  ++ ingredientBullets r.ingredients
  ++ "\n## Instructions\n\n".data
  ++ numberLines 1 r.instructions
  ++ notesSection r.notes

/-- `MarkdownFormatter.format`: `f"---\n{frontmatter}---\n\n{body}"`. -/
def format (r : Recipe) : List Char :=
  "---\n".data ++ yamlRender (frontmatterEntries r) ++ "---\n\n".data
    ++ format_body r

/-! ## `_extract_ingredients_from_markdown` (service.py lines 42-73)

The regex `r"##\s+Ingredients\s*\n\n(.*?)(?=\n##|\Z)"` (DOTALL, IGNORECASE)
is embedded as a scanner: at each position, try to match `##`, then one or
more whitespace characters, then `ingredients` case-insensitively, then a
whitespace run whose last two consumed characters must be `\n\n` (the greedy
`\s*` backtracking), capturing lazily up to the first `\n##` or the end. -/

/-- Python `str.split("\n")`. -/
def pySplitNL : List Char → List (List Char)
  | [] => [[]]
  | c :: cs =>
    if c = '\n' then [] :: pySplitNL cs
    else
      match pySplitNL cs with
      | p :: ps => (c :: p) :: ps
      | [] => [[c]]

/-- Greatest index `i` with `l[i] = l[i+1] = '\n'`. -/
def lastNLNL : List Char → Option Nat
  | [] => none
  | [_] => none
  | a :: b :: rest =>
    match lastNLNL (b :: rest) with
    | some i => some (i + 1)
    | none => if a = '\n' ∧ b = '\n' then some 0 else none

/-- The lazy capture `(.*?)(?=\n##|\Z)`: everything before the first `\n##`,
or the whole list when there is none. -/
def takeUntilNHH : List Char → List Char
  | [] => []
  | [a] => [a]
  | [a, b] => [a, b]
  | a :: b :: c :: rest =>
    if a = '\n' ∧ b = '#' ∧ c = '#' then []
    else a :: takeUntilNHH (b :: c :: rest)

/-- Attempt the section pattern just after a matched `##`. -/
def tryAfterHH (r0 : List Char) : Option (List Char) :=
  if r0.takeWhile pyIsSpace = [] then none
  else
    let r1 := r0.dropWhile pyIsSpace
    if (r1.take 11).map Char.toLower = "ingredients".data then
      let r2 := r1.drop 11
      let run := r2.takeWhile pyIsSpace
      let rest := r2.dropWhile pyIsSpace
      match lastNLNL run with
      | some i => some (takeUntilNHH (run.drop (i + 2) ++ rest))
      | none => none
    else none

/-- Attempt the full section pattern at the current position. -/
def tryIngredientsAt : List Char → Option (List Char)
  | a :: b :: r0 => if a = '#' ∧ b = '#' then tryAfterHH r0 else none
  | _ => none

/-- `re.search`: leftmost position at which the pattern matches. -/
def findIngredientsSection : List Char → Option (List Char)
  | [] => none
  | c :: cs =>
    match tryIngredientsAt (c :: cs) with
    | some cap => some cap
    | none => findIngredientsSection cs

/-- Processing of one line of the captured section (service.py lines 64-70):
after the strip, require a leading `-`, strip the marker
(`line[1:].strip()`), keep a non-empty result. -/
def bulletLineIngredient (line : List Char) : Option (List Char) :=
  match line with
  | c :: rest =>
    if c = '-' then
      (fun ing => if ing = [] then none else some ing) (pyStrip rest)
    else none
  | [] => none

/-- The per-line processing of the captured section: strip each line, keep
the bullet lines' contents. -/
def parseBulletLines (cap : List Char) : List (List Char) :=
  ((pySplitNL cap).map pyStrip).filterMap bulletLineIngredient

/-- `_extract_ingredients_from_markdown`. -/
def extract_ingredients_from_markdown (md : List Char) : List (List Char) :=
  match findIngredientsSection md with
  | some cap => parseBulletLines cap
  | none => []

/-! ## `VaultWriter` (writer.py) over a pure vault state -/

/-- The recipes directory: an association list from filename to stored
document; `lookup` sees the most recent write. -/
abbrev Vault := List (List Char × List Char)

/-- `VaultWriter.get_file_path`: `self.recipes_dir / f"{filename}.md"`
(filenames are taken relative to the fixed recipes directory). -/
def get_file_path (title : List Char) : List Char :=
  sanitize_filename title ++ ".md".data

/-- `VaultWriter.check_duplicate`: the file exists. -/
def check_duplicate (v : Vault) (title : List Char) : Bool :=
  (v.lookup (get_file_path title)).isSome

inductive WriteError | fileExists
  deriving DecidableEq

/-- `VaultWriter.write`, I/O faults aside (`writeAtomic` below carries the
fault model): refuse when the destination exists and overwrite is false,
otherwise store the content under the sanitized path. -/
def vault_write (v : Vault) (title content : List Char) (overwrite : Bool) :
    Except WriteError Vault :=
  let path := get_file_path title
  if !overwrite && (v.lookup path).isSome then .error .fileExists
  else .ok ((path, content) :: v)

inductive WriteStep | mkstemp | writeContent | fsync | rename
  deriving DecidableEq

/-- One destination path of the file system: the destination file's content
and the temporary file's content, if either exists. -/
structure FileState where
  dest : Option (List Char)
  temp : Option (List Char)
  deriving DecidableEq

inductive WriteOutcome | ok | fileExistsErr | ioErr
  deriving DecidableEq

/-- `VaultWriter.write` (writer.py lines 39-94) for one destination path with
fault injection: `failAt = some s` makes the system call at step `s` raise.
Mirrors the source: the duplicate precheck raising `FileExistsError`;
`tempfile.mkstemp`; `f.write` + `f.flush`; `os.fsync`; `os.replace`; on any
exception after the temp file exists, `os.unlink(temp_path)` in the inner
handler, and the outer handler rewraps the exception as `OSError`. -/
def writeAtomic (fs : FileState) (content : List Char) (overwrite : Bool)
    (failAt : Option WriteStep) : FileState × WriteOutcome :=
  if !overwrite && fs.dest.isSome then (fs, .fileExistsErr)
  else if failAt = some .mkstemp then (fs, .ioErr)
  else
    let fs1 : FileState := { fs with temp := some [] }
    if failAt = some .writeContent then ({ fs1 with temp := none }, .ioErr)
    else
      let fs2 : FileState := { fs1 with temp := some content }
      if failAt = some .fsync then ({ fs2 with temp := none }, .ioErr)
      else if failAt = some .rename then ({ fs2 with temp := none }, .ioErr)
      else ({ dest := some content, temp := none }, .ok)

/-- Claim C6: in an authorized write (no duplicate precheck failure) with no
stale temp file, a failure at any step of the sequence (temp-file creation,
content write, fsync, rename) surfaces as an I/O error, leaves the
destination's prior content unchanged and the temporary file deleted; a
fault-free run atomically installs the full content; and the destination only
ever holds its prior content or the complete new content, never a partial
write. -/
theorem C6_write_atomicity (fs : FileState) (content : List Char)
    (overwrite : Bool) (failAt : Option WriteStep)
    (hauth : overwrite = true ∨ fs.dest = none) (htemp : fs.temp = none) :
    ((writeAtomic fs content overwrite failAt).2 = .ioErr ↔ failAt ≠ none) ∧
    (failAt ≠ none →
      (writeAtomic fs content overwrite failAt).1.dest = fs.dest ∧
      (writeAtomic fs content overwrite failAt).1.temp = none) ∧
    (failAt = none →
      (writeAtomic fs content overwrite failAt).2 = .ok ∧
      (writeAtomic fs content overwrite failAt).1.dest = some content ∧
      (writeAtomic fs content overwrite failAt).1.temp = none) ∧
    ((writeAtomic fs content overwrite failAt).1.dest = fs.dest ∨
     (writeAtomic fs content overwrite failAt).1.dest = some content) := by
  have hpre : (!overwrite && fs.dest.isSome) = false := by
    rcases hauth with h | h <;> simp [h]
  cases failAt with
  | none => simp [writeAtomic, hpre]
  | some st => cases st <;> simp [writeAtomic, hpre, htemp]

/-- Witness for C6 at a concrete state: an fsync fault on an authorized
overwrite yields an I/O error and leaves the old content in place. -/
theorem C6_write_atomicity_witness :
    (writeAtomic ⟨some "old".data, none⟩ "new".data true (some .fsync)).2
      = .ioErr ∧
    (writeAtomic ⟨some "old".data, none⟩ "new".data true (some .fsync)).1.dest
      = some "old".data := by
  obtain ⟨h1, h2, _, _⟩ :=
    C6_write_atomicity ⟨some "old".data, none⟩ "new".data true (some .fsync)
      (Or.inl rfl) rfl
  exact ⟨h1.mpr (by simp), (h2 (by simp)).1⟩

/-! ## `process_recipe` (service.py lines 100-265), decision core

Extraction (the LLM round trip) happens before the duplicate logic and is
verified separately (`extractCore` below); the pipeline core takes the
extracted `Recipe` and the vault state and performs duplicate resolution,
formatting, and the write. -/

structure ProcessingResult where
  recipe : Recipe
  markdown : List Char
  file_path : Option (List Char)
  is_duplicate : Bool
  duplicate_ingredients_match : Bool
  deriving DecidableEq

inductive ProcessError | duplicateExists | ingredientMismatch | writeConflict
  deriving DecidableEq

/-- service.py lines 170-187: read the already-stored document for this title
and compare ingredient lists; any failure to read (the `try/except` around
`read_text`) leaves the flag `False`. -/
def storedIngredientsMatch (r : Recipe) (v : Vault) : Bool :=
  match v.lookup (get_file_path r.metadata.title) with
  | some content =>
    compare_ingredients r.ingredients (extract_ingredients_from_markdown content)
  | none => false

/-- `process_recipe` from the duplicate check on (service.py lines 164-265):
compute `is_duplicate` and `duplicate_ingredients_match`, raise
`FileExistsError` (the duplicate-exists variant) when a collision exists
without overwrite outside preview, raise the ingredient-mismatch variant when
overwriting a collision with differing ingredients, then format, and write
unless in preview mode. -/
def processRecipeCore (r : Recipe) (v : Vault) (overwrite preview_only : Bool) :
    Except ProcessError (ProcessingResult × Vault) :=
  let is_dup := check_duplicate v r.metadata.title
  let dmatch := if is_dup then storedIngredientsMatch r v else false
  if is_dup && !preview_only && !overwrite then .error .duplicateExists
  else if is_dup && !preview_only && overwrite && !dmatch then
    .error .ingredientMismatch
  else
    let md := format r
    if preview_only then
      .ok ({ recipe := r, markdown := md, file_path := none,
             is_duplicate := is_dup, duplicate_ingredients_match := dmatch }, v)
    else
      match vault_write v r.metadata.title md overwrite with
      | .ok v' =>
        .ok ({ recipe := r, markdown := md,
               file_path := some (get_file_path r.metadata.title),
               is_duplicate := is_dup, duplicate_ingredients_match := dmatch },
             v')
      | .error _ => .error .writeConflict

/-- Claim C1: the duplicate decision follows the spec's table.  With
`dup := check_duplicate v title` and the stored-ingredient comparison
`storedIngredientsMatch`: no collision (outside preview) → write performed at
the sanitized path; collision ∧ ¬overwrite ∧ ¬preview → duplicate-exists
error, nothing written; collision ∧ overwrite ∧ match ∧ ¬preview → write
performed, replacing the stored document; collision ∧ overwrite ∧ ¬match ∧
¬preview → ingredient-mismatch error, nothing written; preview → never an
error, no write (`file_path = none`, vault unchanged), and the two flags are
reported.  (Preview mode never writes, also when no collision exists — the
claim's own preview clause.) -/
theorem C1_duplicate_decision_table (r : Recipe) (v : Vault) (ow : Bool) :
    (check_duplicate v r.metadata.title = false →
      processRecipeCore r v ow false =
        .ok ({ recipe := r, markdown := format r,
               file_path := some (get_file_path r.metadata.title),
               is_duplicate := false, duplicate_ingredients_match := false },
             (get_file_path r.metadata.title, format r) :: v)) ∧
    (check_duplicate v r.metadata.title = true →
      processRecipeCore r v false false = .error .duplicateExists) ∧
    (check_duplicate v r.metadata.title = true →
      storedIngredientsMatch r v = true →
      processRecipeCore r v true false =
        .ok ({ recipe := r, markdown := format r,
               file_path := some (get_file_path r.metadata.title),
               is_duplicate := true, duplicate_ingredients_match := true },
             (get_file_path r.metadata.title, format r) :: v) ∧
      ((get_file_path r.metadata.title, format r) :: v).lookup
          (get_file_path r.metadata.title) = some (format r)) ∧
    (check_duplicate v r.metadata.title = true →
      storedIngredientsMatch r v = false →
      processRecipeCore r v true false = .error .ingredientMismatch) ∧
    (processRecipeCore r v ow true =
      .ok ({ recipe := r, markdown := format r, file_path := none,
             is_duplicate := check_duplicate v r.metadata.title,
             duplicate_ingredients_match :=
               if check_duplicate v r.metadata.title then
                 storedIngredientsMatch r v
               else false }, v)) := by
  refine ⟨?_, ?_, ?_, ?_, ?_⟩
  · intro hdup
    have hlk : (v.lookup (get_file_path r.metadata.title)).isSome = false := hdup
    simp [processRecipeCore, hdup, vault_write, hlk]
  · intro hdup
    simp [processRecipeCore, hdup]
  · intro hdup hmatch
    constructor
    · simp [processRecipeCore, hdup, hmatch, vault_write]
    · simp
  · intro hdup hmatch
    simp [processRecipeCore, hdup, hmatch]
  · by_cases hdup : check_duplicate v r.metadata.title <;>
      simp [processRecipeCore, hdup]

/-- Witness for C1 at a concrete state: an empty vault has no collision, and
the pipeline writes the document. -/
theorem C1_duplicate_decision_table_witness :
    processRecipeCore
        { metadata := { title := "T".data, created := "2024".data },
          ingredients := [], instructions := [] } [] false false
      = .ok ({ recipe := { metadata := { title := "T".data,
                                         created := "2024".data },
                           ingredients := [], instructions := [] },
               markdown := format { metadata := { title := "T".data,
                                                  created := "2024".data },
                                    ingredients := [], instructions := [] },
               file_path := some (get_file_path "T".data),
               is_duplicate := false, duplicate_ingredients_match := false },
             (get_file_path "T".data,
              format { metadata := { title := "T".data,
                                     created := "2024".data },
                       ingredients := [], instructions := [] }) :: []) := by
  exact (C1_duplicate_decision_table
    { metadata := { title := "T".data, created := "2024".data },
      ingredients := [], instructions := [] } [] false).1 (by decide)

/-! ## `RecipeExtractor.extract` and `calculate_nutrition` (extractor.py)

The two LLM calls are collaborators: the first call's parsed JSON enters as a
`Draft`, the second call's outcome as a `GenOutcome`.  The regex fallback
heuristics (`_extract_*_fallback`) scan free text; their results enter as a
`FallbackOutcome` — no claim depends on their internals. -/

/-- A JSON value sitting in a numeric field slot: either a value Python's
`float()` accepts (a number, or a numeric string), or one on which `float()`
raises (`TypeError`/`ValueError`), e.g. JSON null or a non-numeric string. -/
inductive JNum
  | num (q : ℚ)
  | nonNum
  deriving DecidableEq

/-- The parsed JSON object of the second (nutrition) LLM call; `none` is a
missing key (`result[...]` raises `KeyError`). -/
structure NutritionResponse where
  calories_per_serving : Option JNum := none
  carbs_grams : Option JNum := none
  protein_grams : Option JNum := none
  fat_grams : Option JNum := none
  deriving DecidableEq

/-- Outcome of one `OllamaClient.generate` call (client.py lines 28-129):
`connFailure` when requests raises ConnectionError/Timeout/HTTPError (all
re-raised as `ConnectionError`); `malformed` when the response text is empty
or is not valid JSON (raised as `ValueError`); `ok` with the parsed object
otherwise. -/
inductive GenOutcome
  | connFailure
  | malformed
  | ok (resp : NutritionResponse)
  deriving DecidableEq

structure Nutrition where
  calories_per_serving : ℚ
  carbs_grams : ℚ
  protein_grams : ℚ
  fat_grams : ℚ
  deriving DecidableEq

def zeroNutrition : Nutrition := ⟨0, 0, 0, 0⟩

/-- `float(slot)` as used on a fetched JSON value: `some q` when the cast
succeeds, `none` when the key is missing or the cast raises. -/
def getNum : Option JNum → Option ℚ
  | some (JNum.num q) => some q
  | _ => none

inductive NutritionError | connectionError
  deriving DecidableEq

/-- `RecipeExtractor.calculate_nutrition` (extractor.py lines 291-337): the
`try` block covers the `generate` call and the four `float(result[...])`
casts, and `except (KeyError, TypeError, ValueError)` returns the all-zero
defaults; a `ConnectionError` from `generate` is NOT caught and propagates
(the method's own docstring documents this). -/
def calculate_nutrition (out : GenOutcome) : Except NutritionError Nutrition :=
  match out with
  | .connFailure => .error .connectionError
  | .malformed => .ok zeroNutrition
  | .ok resp =>
    match getNum resp.calories_per_serving, getNum resp.carbs_grams,
          getNum resp.protein_grams, getNum resp.fat_grams with
    | some c, some cb, some p, some f => .ok ⟨c, cb, p, f⟩
    | _, _, _, _ => .ok zeroNutrition

/-- The unvalidated field set parsed from the first LLM call (`result` in
`RecipeExtractor.extract`); `none` covers both a missing key and JSON null
(`result.get` returns None for both). -/
structure Draft where
  title : Option (List Char) := none
  prep_time : Option (List Char) := none
  cook_time : Option (List Char) := none
  cuisine : Option (List Char) := none
  main_ingredient : Option (List Char) := none
  servings : Option Int := none
  ingredients : Option (List (List Char)) := none
  instructions : Option (List (List Char)) := none
  notes : Option (List Char) := none
  calories_per_serving : Option JNum := none
  carbs_grams : Option JNum := none
  protein_grams : Option JNum := none
  fat_grams : Option JNum := none
  deriving DecidableEq

/-- Results of `_extract_title_fallback` / `_extract_ingredients_fallback` /
`_extract_instructions_fallback` on the preprocessed text. -/
structure FallbackOutcome where
  title : Option (List Char) := none
  ingredients : Option (List (List Char)) := none
  instructions : Option (List (List Char)) := none
  deriving DecidableEq

/-- `not result.get(key)` for a string field: None and `""` are falsy. -/
def optStrFalsy : Option (List Char) → Bool
  | none => true
  | some s => s = []

/-- `not result.get(key)` for a list field: None and `[]` are falsy. -/
def optListFalsy : Option (List (List Char)) → Bool
  | none => true
  | some l => l = []

/-- `servings = result.get("servings") or 1` (extractor.py line 169): None
and 0 yield 1, any other integer is kept. -/
def draftServings (v : Option Int) : Int :=
  match v with
  | some n => if n = 0 then 1 else n
  | none => 1

inductive ExtractError | connectionError | valueError
  deriving DecidableEq

/-- pydantic validation of `RecipeMetadata` (models/recipe.py): servings ≥ 1,
calories ≥ 0, macro fields ≥ 0.  A violation raises pydantic's
ValidationError, a `ValueError` subclass, caught at extractor.py line 287 and
re-raised as `ValueError`. -/
def validMetadata (m : RecipeMetadata) : Bool :=
  (match m.servings with | some n => decide (1 ≤ n) | none => true)
  && (match m.calories_per_serving with
      | some q => decide (0 ≤ q)
      | none => true)
  && (match m.macros with
      | some mm =>
        decide (0 ≤ mm.carbs) && decide (0 ≤ mm.protein) && decide (0 ≤ mm.fat)
      | none => true)

/-- The nutrition-reconciliation phase of `RecipeExtractor.extract`
(extractor.py lines 168-244): use the four extracted values verbatim iff all
four are present (a present but non-castable value makes the `float()` cast
raise `ValueError`); otherwise discard any partial values and issue the
second LLM call, whose `ConnectionError` propagates while parse failures
degrade to zeros inside `calculate_nutrition`.  The boolean records whether
the second call was issued. -/
def reconcileNutrition (d : Draft) (nutOut : GenOutcome) :
    Except ExtractError (Nutrition × Bool) :=
  if d.calories_per_serving.isSome && d.carbs_grams.isSome
      && d.protein_grams.isSome && d.fat_grams.isSome then
    match getNum d.calories_per_serving, getNum d.carbs_grams,
          getNum d.protein_grams, getNum d.fat_grams with
    | some c, some cb, some p, some f => .ok (⟨c, cb, p, f⟩, false)
    | _, _, _, _ => .error .valueError
  else
    match calculate_nutrition nutOut with
    | .ok n => .ok (n, true)
    | .error _ => .error .connectionError

/-- Title with fallback (extractor.py lines 124-136): a falsy draft title
(missing, null or empty) is replaced by the `_extract_title_fallback` result,
or by `"Untitled Recipe"` when that heuristic found nothing. -/
def fallbackTitle (dt ft : Option (List Char)) : List Char :=
  if optStrFalsy dt then
    (match ft with
     | some t => t
     | none => "Untitled Recipe".data)
  else dt.getD []

/-- Ingredients/instructions with fallback (extractor.py lines 138-164): a
falsy draft list is replaced by the fallback heuristic's result, or by the
empty list. -/
def fallbackList (dl fl : Option (List (List Char))) : List (List Char) :=
  if optListFalsy dl then
    (match fl with | some l => l | none => [])
  else dl.getD []

/-- URL leniency (extractor.py lines 246-253): a provided source URL is kept
only when `HttpUrl(source_url)` validates; an invalid one is dropped. -/
def urlOf (su : Option (List Char)) (uv : Bool) : Option (List Char) :=
  match su with
  | some u => if uv then some u else none
  | none => none

/-- The `RecipeMetadata(...)` construction (extractor.py lines 256-271). -/
def assembledMetadata (d : Draft) (fb : FallbackOutcome) (nut : Nutrition)
    (su : Option (List Char)) (uv : Bool) (now : List Char) : RecipeMetadata :=
  { title := fallbackTitle d.title fb.title
    prep_time := d.prep_time
    cook_time := d.cook_time
    cuisine := d.cuisine
    url := urlOf su uv
    main_ingredient := d.main_ingredient
    calories_per_serving := some nut.calories_per_serving
    macros := some ⟨nut.carbs_grams, nut.protein_grams, nut.fat_grams⟩
    servings := some (draftServings d.servings)
    created := now }

/-- The assembly phase of `RecipeExtractor.extract` (extractor.py lines
124-164 and 246-282): field fallbacks, URL leniency, metadata construction
with pydantic validation, recipe assembly. -/
def assembleRecipe (d : Draft) (fb : FallbackOutcome) (nut : Nutrition)
    (secondCall : Bool) (source_url : Option (List Char)) (urlValid : Bool)
    (now : List Char) : Except ExtractError (Recipe × Bool) :=
  let metadata := assembledMetadata d fb nut source_url urlValid now
  if validMetadata metadata then
    .ok ({ metadata := metadata
           ingredients := fallbackList d.ingredients fb.ingredients
           instructions := fallbackList d.instructions fb.instructions
           notes := d.notes }, secondCall)
  else .error .valueError

/-- `RecipeExtractor.extract` (extractor.py lines 108-289) after the JSON
layer: reconciliation, then assembly.  Returns the recipe and whether the
second LLM call was issued. -/
def extractCore (d : Draft) (fb : FallbackOutcome) (nutOut : GenOutcome)
    (source_url : Option (List Char)) (urlValid : Bool) (now : List Char) :
    Except ExtractError (Recipe × Bool) :=
  match reconcileNutrition d nutOut with
  | .error e => .error e
  | .ok (nut, secondCall) =>
    assembleRecipe d fb nut secondCall source_url urlValid now

theorem assembleRecipe_ok {d : Draft} {fb : FallbackOutcome} {nut : Nutrition}
    {secondCall : Bool} {su : Option (List Char)} {uv : Bool}
    {now : List Char} {r : Recipe} {sc : Bool}
    (h : assembleRecipe d fb nut secondCall su uv now = Except.ok (r, sc)) :
    sc = secondCall ∧
    r.metadata = assembledMetadata d fb nut su uv now ∧
    r.metadata.calories_per_serving = some nut.calories_per_serving ∧
    r.metadata.macros
      = some ⟨nut.carbs_grams, nut.protein_grams, nut.fat_grams⟩ ∧
    r.metadata.servings = some (draftServings d.servings) ∧
    validMetadata r.metadata = true := by
  unfold assembleRecipe at h
  dsimp only [] at h
  split at h
  · next hv =>
    simp only [Except.ok.injEq, Prod.mk.injEq] at h
    obtain ⟨hrec, hsc⟩ := h
    subst hrec
    exact ⟨hsc.symm, rfl, rfl, rfl, rfl, hv⟩
  · simp at h

theorem getNum_eq_some {x : Option JNum} {q : ℚ} :
    getNum x = some q ↔ x = some (JNum.num q) := by
  cases x with
  | none => simp [getNum]
  | some j => cases j <;> simp [getNum]

theorem reconcileNutrition_ok_four {d : Draft} {nutOut : GenOutcome}
    {nut : Nutrition} {sc : Bool}
    (hfour : (d.calories_per_serving.isSome && d.carbs_grams.isSome
      && d.protein_grams.isSome && d.fat_grams.isSome) = true)
    (h : reconcileNutrition d nutOut = Except.ok (nut, sc)) :
    sc = false ∧
    ∃ c cb p f, d.calories_per_serving = some (JNum.num c) ∧
      d.carbs_grams = some (JNum.num cb) ∧
      d.protein_grams = some (JNum.num p) ∧
      d.fat_grams = some (JNum.num f) ∧
      nut = ⟨c, cb, p, f⟩ := by
  unfold reconcileNutrition at h
  rw [if_pos hfour] at h
  split at h
  · next c cb p f h1 h2 h3 h4 =>
    simp only [Except.ok.injEq, Prod.mk.injEq] at h
    obtain ⟨hnut, hsc⟩ := h
    exact ⟨hsc.symm, c, cb, p, f, getNum_eq_some.mp h1, getNum_eq_some.mp h2,
      getNum_eq_some.mp h3, getNum_eq_some.mp h4, hnut.symm⟩
  · exact absurd h (by simp)

theorem reconcileNutrition_ok_partial {d : Draft} {nutOut : GenOutcome}
    {nut : Nutrition} {sc : Bool}
    (hfour : (d.calories_per_serving.isSome && d.carbs_grams.isSome
      && d.protein_grams.isSome && d.fat_grams.isSome) = false)
    (h : reconcileNutrition d nutOut = Except.ok (nut, sc)) :
    sc = true ∧ calculate_nutrition nutOut = Except.ok nut := by
  unfold reconcileNutrition at h
  rw [if_neg (by simp [hfour])] at h
  split at h
  · next n hcalc =>
    simp only [Except.ok.injEq, Prod.mk.injEq] at h
    obtain ⟨hnut, hsc⟩ := h
    exact ⟨hsc.symm, hnut ▸ hcalc⟩
  · exact absurd h (by simp)

theorem extractCore_ok {d : Draft} {fb : FallbackOutcome}
    {nutOut : GenOutcome} {su : Option (List Char)} {uv : Bool}
    {now : List Char} {r : Recipe} {sc : Bool}
    (h : extractCore d fb nutOut su uv now = Except.ok (r, sc)) :
    ∃ nut sc0, reconcileNutrition d nutOut = Except.ok (nut, sc0) ∧
      assembleRecipe d fb nut sc0 su uv now = Except.ok (r, sc) := by
  unfold extractCore at h
  split at h
  · exact absurd h (by simp)
  · next nut sc0 heq => exact ⟨nut, sc0, heq, h⟩

/-- Claim C3 is false as stated: when the second LLM call itself fails at the
connection level (endpoint unreachable, timeout, HTTP error — all surfaced by
`OllamaClient.generate` as `ConnectionError`), `calculate_nutrition` does not
return the zero defaults but propagates the error: its `except` clause
catches only `KeyError`/`TypeError`/`ValueError`. -/
theorem C3_counterexample :
    calculate_nutrition GenOutcome.connFailure
      = Except.error NutritionError.connectionError := rfl

/-- Claim C3 (amended): whenever the second LLM call yields a response —
well-formed or malformed — `calculate_nutrition` succeeds; a malformed
response (empty text or invalid JSON) and any response missing a field or
carrying a non-castable value degrade to the all-zero defaults.  Only a
connection-level failure of the call propagates (as a connection error). -/
theorem C3_nutrition_soft_failure :
    (∀ out : GenOutcome, out ≠ GenOutcome.connFailure →
      ∃ n, calculate_nutrition out = Except.ok n) ∧
    calculate_nutrition GenOutcome.malformed = Except.ok zeroNutrition ∧
    (∀ resp : NutritionResponse,
      getNum resp.calories_per_serving = none ∨
      getNum resp.carbs_grams = none ∨
      getNum resp.protein_grams = none ∨
      getNum resp.fat_grams = none →
      calculate_nutrition (GenOutcome.ok resp) = Except.ok zeroNutrition) := by
  refine ⟨fun out hout => ?_, rfl, fun resp hresp => ?_⟩
  · cases out with
    | connFailure => exact absurd rfl hout
    | malformed => exact ⟨zeroNutrition, rfl⟩
    | ok resp =>
      unfold calculate_nutrition
      rcases h1 : getNum resp.calories_per_serving with _ | c <;>
        rcases h2 : getNum resp.carbs_grams with _ | cb <;>
        rcases h3 : getNum resp.protein_grams with _ | p <;>
        rcases h4 : getNum resp.fat_grams with _ | f <;>
        simp [h1, h2, h3, h4]
  · unfold calculate_nutrition
    rcases h1 : getNum resp.calories_per_serving with _ | c <;>
      rcases h2 : getNum resp.carbs_grams with _ | cb <;>
      rcases h3 : getNum resp.protein_grams with _ | p <;>
      rcases h4 : getNum resp.fat_grams with _ | f <;>
      simp [h1, h2, h3, h4] <;>
      simp [h1, h2, h3, h4] at hresp

/-- Witness for C3 at a concrete response: a response with a missing calories
key and a non-numeric protein value degrades to the zero defaults. -/
theorem C3_nutrition_soft_failure_witness :
    calculate_nutrition (GenOutcome.ok
        { carbs_grams := some (JNum.num 3), protein_grams := some JNum.nonNum })
      = Except.ok zeroNutrition := by
  exact C3_nutrition_soft_failure.2.2
    { carbs_grams := some (JNum.num 3), protein_grams := some JNum.nonNum }
    (Or.inl rfl)

/-- Claim C2: nutrition reconciliation is all-or-nothing.  On every successful
extraction: if all four draft fields are present, the recipe carries exactly
the four extracted values (cast to float) and the second LLM call was not
issued; if not all four are present (so zero to three of them are), every
extracted partial value is discarded, the second LLM call was issued, and the
recipe carries exactly its four calculated values — the recipe never mixes
extracted-sourced and calculated-sourced nutrition values. -/
theorem C2_nutrition_reconciliation (d : Draft) (fb : FallbackOutcome)
    (nutOut : GenOutcome) (su : Option (List Char)) (uv : Bool)
    (now : List Char) (r : Recipe) (sc : Bool)
    (h : extractCore d fb nutOut su uv now = Except.ok (r, sc)) :
    ((d.calories_per_serving.isSome && d.carbs_grams.isSome
        && d.protein_grams.isSome && d.fat_grams.isSome) = true →
      sc = false ∧
      ∃ c cb p f, d.calories_per_serving = some (JNum.num c) ∧
        d.carbs_grams = some (JNum.num cb) ∧
        d.protein_grams = some (JNum.num p) ∧
        d.fat_grams = some (JNum.num f) ∧
        r.metadata.calories_per_serving = some c ∧
        r.metadata.macros = some ⟨cb, p, f⟩) ∧
    ((d.calories_per_serving.isSome && d.carbs_grams.isSome
        && d.protein_grams.isSome && d.fat_grams.isSome) = false →
      sc = true ∧
      ∃ n, calculate_nutrition nutOut = Except.ok n ∧
        r.metadata.calories_per_serving = some n.calories_per_serving ∧
        r.metadata.macros
          = some ⟨n.carbs_grams, n.protein_grams, n.fat_grams⟩) := by
  obtain ⟨nut, sc0, hrec, hasm⟩ := extractCore_ok h
  obtain ⟨hsc, _, hcal, hmac, _, _⟩ := assembleRecipe_ok hasm
  constructor
  · intro hfour
    obtain ⟨hsc0, c, cb, p, f, h1, h2, h3, h4, hnut⟩ :=
      reconcileNutrition_ok_four hfour hrec
    subst hnut
    exact ⟨hsc.trans hsc0, c, cb, p, f, h1, h2, h3, h4, hcal, hmac⟩
  · intro hfour
    obtain ⟨hsc0, hcalc⟩ := reconcileNutrition_ok_partial hfour hrec
    exact ⟨hsc.trans hsc0, nut, hcalc, hcal, hmac⟩

/-- Witness draft for the reconciliation claims: all four nutrition fields
present (350 cal, 45 g carbs, 30 g protein, 8 g fat). -/
def draftFourPresent : Draft :=
  { title := some "Pasta".data
    servings := some 4
    ingredients := some ["200g pasta".data]
    instructions := some ["Boil".data]
    calories_per_serving := some (JNum.num 350)
    carbs_grams := some (JNum.num 45)
    protein_grams := some (JNum.num 30)
    fat_grams := some (JNum.num 8) }

/-- The recipe assembled from `draftFourPresent`. -/
def recipeFourPresent : Recipe :=
  { metadata :=
      { title := "Pasta".data
        calories_per_serving := some 350
        macros := some ⟨45, 30, 8⟩
        servings := some 4
        created := "2024".data }
    ingredients := ["200g pasta".data]
    instructions := ["Boil".data] }

/-- Witness for C2 at a concrete draft: with all four fields present the
recipe uses them verbatim and no second call is issued (the nutrition call
outcome is irrelevant and set to a failure). -/
theorem C2_nutrition_reconciliation_witness :
    extractCore draftFourPresent {} GenOutcome.connFailure none false
        "2024".data = Except.ok (recipeFourPresent, false) ∧
    recipeFourPresent.metadata.calories_per_serving = some 350 ∧
    recipeFourPresent.metadata.macros = some ⟨45, 30, 8⟩ := by
  have hrun : extractCore draftFourPresent {} GenOutcome.connFailure none
      false "2024".data = Except.ok (recipeFourPresent, false) := by rfl
  have h := (C2_nutrition_reconciliation draftFourPresent {}
    GenOutcome.connFailure none false "2024".data recipeFourPresent false
    hrun).1 (by decide)
  refine ⟨hrun, ?_, ?_⟩
  · obtain ⟨-, c, cb, p, f, h1, -, -, -, h5, -⟩ := h
    have h1' : some (JNum.num 350) = some (JNum.num c) := h1
    injection h1' with e1
    injection e1 with q1
    rw [h5, ← q1]
  · obtain ⟨-, c, cb, p, f, -, h2, h3, h4, -, h6⟩ := h
    have h2' : some (JNum.num 45) = some (JNum.num cb) := h2
    have h3' : some (JNum.num 30) = some (JNum.num p) := h3
    have h4' : some (JNum.num 8) = some (JNum.num f) := h4
    injection h2' with e2
    injection e2 with q2
    injection h3' with e3
    injection e3 with q3
    injection h4' with e4
    injection e4 with q4
    rw [h6, ← q2, ← q3, ← q4]

/-- Claim C10: every Recipe returned by the extraction pipeline has servings
present and equal to an integer at least 1 (a draft with servings absent,
null, or 0 yields 1), and has macros present and fully populated with all
three fields — macros is never absent and never partial in an assembled
Recipe, even though the data model allows both to be absent. -/
theorem C10_extract_invariants (d : Draft) (fb : FallbackOutcome)
    (nutOut : GenOutcome) (su : Option (List Char)) (uv : Bool)
    (now : List Char) (r : Recipe) (sc : Bool)
    (h : extractCore d fb nutOut su uv now = Except.ok (r, sc)) :
    (∃ n, r.metadata.servings = some n ∧ 1 ≤ n) ∧
    ((d.servings = none ∨ d.servings = some 0) →
      r.metadata.servings = some 1) ∧
    (∃ carbs protein fat, r.metadata.macros = some ⟨carbs, protein, fat⟩) := by
  obtain ⟨nut, sc0, hrec, hasm⟩ := extractCore_ok h
  obtain ⟨_, _, _, hmac, hserv, hval⟩ := assembleRecipe_ok hasm
  refine ⟨⟨draftServings d.servings, hserv, ?_⟩, ?_, ?_⟩
  · have h1 := hval
    unfold validMetadata at h1
    rw [hserv] at h1
    simp only [Bool.and_eq_true, decide_eq_true_eq] at h1
    exact h1.1.1
  · intro hd
    rw [hserv]
    rcases hd with h0 | h0 <;> simp [draftServings, h0]
  · exact ⟨nut.carbs_grams, nut.protein_grams, nut.fat_grams, hmac⟩

/-- The recipe assembled from a draft whose only populated field is
`servings = 0`, with a malformed nutrition response (zero defaults). -/
def recipeZeroServings : Recipe :=
  { metadata :=
      { title := "Untitled Recipe".data
        calories_per_serving := some 0
        macros := some ⟨0, 0, 0⟩
        servings := some 1
        created := "2024".data }
    ingredients := []
    instructions := [] }

/-- Witness for C10 at a concrete draft: servings 0 in the draft yields a
recipe with servings 1 and fully populated macros. -/
theorem C10_extract_invariants_witness :
    extractCore { servings := some 0 } {} GenOutcome.malformed none false
        "2024".data = Except.ok (recipeZeroServings, true) ∧
    recipeZeroServings.metadata.servings = some 1 ∧
    ∃ carbs protein fat,
      recipeZeroServings.metadata.macros = some ⟨carbs, protein, fat⟩ := by
  have hrun : extractCore { servings := some 0 } {} GenOutcome.malformed none
      false "2024".data = Except.ok (recipeZeroServings, true) := by rfl
  have h := C10_extract_invariants { servings := some 0 } {}
    GenOutcome.malformed none false "2024".data recipeZeroServings true hrun
  exact ⟨hrun, h.2.1 (Or.inr rfl), h.2.2⟩

/-! ## Claim C9: round trip -/

/-- True iff the list contains two adjacent `#` characters. -/
def hasDH : List Char → Bool
  | [] => false
  | [_] => false
  | a :: b :: rest => (a = '#' && b = '#') || hasDH (b :: rest)

/-- The document text that precedes the Ingredients section heading in a
rendered recipe: opening fence, frontmatter, closing fence, title heading. -/
def docPrefix (r : Recipe) : List Char :=
  "---\n".data ++ yamlRender (frontmatterEntries r) ++ "---\n\n# ".data
    ++ r.metadata.title ++ "\n\n".data

/-- The scanner skips a prefix that contains no `##` (also across the
boundary to the first character of the rest). -/
theorem findIngredientsSection_append (pre s : List Char)
    (h : hasDH (pre ++ s.take 1) = false) :
    findIngredientsSection (pre ++ s) = findIngredientsSection s := by
  induction pre with
  | nil => rfl
  | cons c pre' ih =>
    cases pre' with
    | nil =>
      cases s with
      | nil => rfl
      | cons a as =>
        have hx : ¬(c = '#' ∧ a = '#') := by
          simp only [List.nil_append, List.take, List.cons_append,
            hasDH, Bool.or_eq_false_iff, Bool.and_eq_false_iff] at h
          intro ⟨h1, h2⟩
          rcases h.1 with h' | h' <;> simp [h1, h2] at h'
        show findIngredientsSection (c :: a :: as)
          = findIngredientsSection (a :: as)
        simp [findIngredientsSection, tryIngredientsAt, hx]
    | cons p pre'' =>
      have hx : ¬(c = '#' ∧ p = '#') := by
        simp only [List.cons_append, hasDH, Bool.or_eq_false_iff,
          Bool.and_eq_false_iff] at h
        intro ⟨h1, h2⟩
        rcases h.1 with h' | h' <;> simp [h1, h2] at h'
      have htail : hasDH ((p :: pre'') ++ s.take 1) = false := by
        simp only [List.cons_append, hasDH, Bool.or_eq_false_iff] at h
        simpa using h.2
      have hnone : tryIngredientsAt (c :: p :: (pre'' ++ s)) = none := by
        simp [tryIngredientsAt, hx]
      show findIngredientsSection (c :: p :: (pre'' ++ s))
        = findIngredientsSection s
      rw [findIngredientsSection, hnone]
      exact ih htail

/-- The lazy capture copies a non-newline head (a `\n##` occurrence starts
with a newline). -/
theorem takeUntilNHH_cons_ne (a : Char) (rest : List Char) (ha : a ≠ '\n') :
    takeUntilNHH (a :: rest) = a :: takeUntilNHH rest := by
  cases rest with
  | nil => rfl
  | cons x xs =>
    cases xs with
    | nil => rfl
    | cons y zs =>
      have h : ¬(a = '\n' ∧ x = '#' ∧ y = '#') := fun hc => ha hc.1
      rw [takeUntilNHH, if_neg h]

/-- The lazy capture passes unchanged through a newline-free segment. -/
theorem takeUntilNHH_append_seg (seg rest : List Char)
    (hseg : ∀ c ∈ seg, c ≠ '\n') :
    takeUntilNHH (seg ++ rest) = seg ++ takeUntilNHH rest := by
  induction seg with
  | nil => rfl
  | cons a seg' ih =>
    rw [List.cons_append,
      takeUntilNHH_cons_ne a _ (hseg a (List.mem_cons_self a seg')),
      ih (fun c hc => hseg c (List.mem_cons_of_mem _ hc)), List.cons_append]

/-- The capture of the Ingredients section stops exactly at the `\n##` that
opens the Instructions heading: the bullet list is captured in full. -/
theorem takeUntilNHH_bullets (is : List (List Char)) (t : List Char)
    (h : ∀ i ∈ is, '\n' ∉ i) :
    takeUntilNHH (ingredientBullets is ++ '\n' :: '#' :: '#' :: t)
      = ingredientBullets is := by
  induction is with
  | nil =>
    show takeUntilNHH (ingredientBullets [] ++ '\n' :: '#' :: '#' :: t) = []
    rfl
  | cons i is' ih =>
    have hi : '\n' ∉ i := h i (List.mem_cons_self _ _)
    have h' : ∀ j ∈ is', '\n' ∉ j := fun j hj => h j (List.mem_cons_of_mem _ hj)
    have hshape : ingredientBullets (i :: is') ++ '\n' :: '#' :: '#' :: t
        = ('-' :: ' ' :: i)
          ++ ('\n' :: (ingredientBullets is' ++ '\n' :: '#' :: '#' :: t)) := by
      simp [ingredientBullets, List.append_assoc]
    rw [hshape, takeUntilNHH_append_seg _ _ ?_]
    · cases his' : is' with
      | nil =>
        have hfin : takeUntilNHH
            ('\n' :: (ingredientBullets [] ++ '\n' :: '#' :: '#' :: t))
            = ['\n'] := rfl
        rw [hfin]
        simp [ingredientBullets]
      | cons j is'' =>
        rw [his'] at ih h'
        have hexp : ingredientBullets (j :: is'') ++ '\n' :: '#' :: '#' :: t
            = '-' :: ' ' :: ((j ++ ['\n'])
              ++ (ingredientBullets is'' ++ '\n' :: '#' :: '#' :: t)) := by
          simp [ingredientBullets, List.append_assoc]
        have hstep : takeUntilNHH
            ('\n' :: (ingredientBullets (j :: is'') ++ '\n' :: '#' :: '#' :: t))
            = '\n' :: takeUntilNHH
                (ingredientBullets (j :: is'') ++ '\n' :: '#' :: '#' :: t) := by
          rw [hexp, takeUntilNHH, if_neg (by simp)]
        rw [hstep, ih h']
        simp [ingredientBullets]
    · intro c hc
      simp only [List.mem_cons] at hc
      rcases hc with h0 | h0 | h0
      · simp [h0]
      · simp [h0]
      · exact fun he => hi (he ▸ h0)

theorem pySplitNL_cons_newline (b : List Char) :
    pySplitNL ('\n' :: b) = [] :: pySplitNL b := rfl

theorem pySplitNL_ne_nil (l : List Char) : pySplitNL l ≠ [] := by
  cases l with
  | nil => simp [pySplitNL]
  | cons c cs =>
    by_cases hc : c = '\n'
    · simp [pySplitNL, hc]
    · simp only [pySplitNL, if_neg hc]
      cases h : pySplitNL cs with
      | nil => simp
      | cons p ps => simp

theorem pySplitNL_append (a b : List Char) (ha : '\n' ∉ a) :
    pySplitNL (a ++ '\n' :: b) = a :: pySplitNL b := by
  induction a with
  | nil => rfl
  | cons c a' ih =>
    have hc : ¬(c = '\n') := fun h => ha (h ▸ List.mem_cons_self c a')
    have ha' : '\n' ∉ a' := fun h => ha (List.mem_cons_of_mem _ h)
    show pySplitNL (c :: (a' ++ '\n' :: b)) = (c :: a') :: pySplitNL b
    rw [pySplitNL, if_neg hc, ih ha']

/-- Splitting the bullet list on newlines yields one `- <ingredient>` line
per ingredient, plus the empty final piece from the trailing newline. -/
theorem pySplitNL_bullets (is : List (List Char))
    (h : ∀ i ∈ is, '\n' ∉ i) :
    pySplitNL (ingredientBullets is)
      = (is.map (fun i => "- ".data ++ i)) ++ [[]] := by
  induction is with
  | nil => rfl
  | cons i is' ih =>
    have hi : '\n' ∉ i := h i (List.mem_cons_self _ _)
    have h' : ∀ j ∈ is', '\n' ∉ j := fun j hj => h j (List.mem_cons_of_mem _ hj)
    have hshape : ingredientBullets (i :: is')
        = ("- ".data ++ i) ++ '\n' :: ingredientBullets is' := by
      simp [ingredientBullets, List.append_assoc]
    have hmem : '\n' ∉ "- ".data ++ i := by
      intro hm
      rcases List.mem_append.mp hm with h0 | h0
      · simp at h0
      · exact hi h0
    rw [hshape, pySplitNL_append _ _ hmem, ih h']
    simp

theorem dropWhile_eq_self_of_length {p : Char → Bool} {l : List Char}
    (h : (l.dropWhile p).length = l.length) : l.dropWhile p = l := by
  cases l with
  | nil => rfl
  | cons c cs =>
    by_cases hc : p c
    · exfalso
      rw [List.dropWhile_cons_of_pos hc] at h
      have := dropWhile_length_le p cs
      simp at h
      omega
    · exact List.dropWhile_cons_of_neg hc

/-- A string equal to its own strip is untouched by the leading
whitespace-drop. -/
theorem dropWhile_of_stripped {i : List Char} (h : pyStrip i = i) :
    i.dropWhile pyIsSpace = i := by
  apply dropWhile_eq_self_of_length
  refine Nat.le_antisymm (dropWhile_length_le _ _) ?_
  calc i.length = (pyStrip i).length := by rw [h]
    _ ≤ ((i.dropWhile pyIsSpace).reverse.dropWhile pyIsSpace).length := by
        unfold pyStrip
        simp
    _ ≤ (i.dropWhile pyIsSpace).reverse.length := dropWhile_length_le _ _
    _ = (i.dropWhile pyIsSpace).length := by simp

/-- A string equal to its own strip is untouched by the trailing
whitespace-drop (phrased on the reversal). -/
theorem dropWhile_reverse_of_stripped {i : List Char} (h : pyStrip i = i) :
    i.reverse.dropWhile pyIsSpace = i.reverse := by
  have h1 : i.dropWhile pyIsSpace = i := dropWhile_of_stripped h
  have h2 : pyStrip i = (i.reverse.dropWhile pyIsSpace).reverse := by
    unfold pyStrip
    rw [h1]
  rw [h] at h2
  calc i.reverse.dropWhile pyIsSpace
      = (i.reverse.dropWhile pyIsSpace).reverse.reverse := by simp
    _ = i.reverse := by rw [← h2]

theorem dropWhile_append_of_stripped {x y : List Char}
    (hx : x.dropWhile pyIsSpace = x) (hne : x ≠ []) :
    (x ++ y).dropWhile pyIsSpace = x ++ y := by
  cases x with
  | nil => exact absurd rfl hne
  | cons c t =>
    have hc : ¬(pyIsSpace c = true) := by
      intro hc
      rw [List.dropWhile_cons_of_pos hc] at hx
      have hlen := dropWhile_length_le pyIsSpace t
      rw [hx] at hlen
      simp at hlen
    show ((c :: t) ++ y).dropWhile pyIsSpace = (c :: t) ++ y
    rw [List.cons_append, List.dropWhile_cons_of_neg hc]

/-- A bullet line `- <ingredient>` is untouched by the strip when the
ingredient is non-empty and stripped. -/
theorem pyStrip_bullet_line {i : List Char} (hst : pyStrip i = i)
    (hne : i ≠ []) :
    pyStrip ('-' :: ' ' :: i) = '-' :: ' ' :: i := by
  have h1 : ('-' :: ' ' :: i).dropWhile pyIsSpace = '-' :: ' ' :: i :=
    List.dropWhile_cons_of_neg (by decide)
  have hrevne : i.reverse ≠ [] := by
    simpa using hne
  have h2 : (i.reverse ++ [' ', '-']).dropWhile pyIsSpace
      = i.reverse ++ [' ', '-'] :=
    dropWhile_append_of_stripped (dropWhile_reverse_of_stripped hst) hrevne
  show pyStrip ('-' :: ' ' :: i) = '-' :: ' ' :: i
  unfold pyStrip
  rw [h1]
  have h3 : ('-' :: ' ' :: i).reverse = i.reverse ++ [' ', '-'] := by simp
  rw [h3, h2, ← h3, List.reverse_reverse]

/-- `line[1:].strip()` on a bullet line recovers the ingredient. -/
theorem pyStrip_space_ing {i : List Char} (hst : pyStrip i = i) :
    pyStrip (' ' :: i) = i := by
  unfold pyStrip
  rw [List.dropWhile_cons_of_pos (by decide), dropWhile_of_stripped hst,
    dropWhile_reverse_of_stripped hst, List.reverse_reverse]

theorem bulletLineIngredient_line {i : List Char} (hne : i ≠ [])
    (hst : pyStrip i = i) :
    bulletLineIngredient ('-' :: ' ' :: i) = some i := by
  show (if '-' = '-' then
    (fun ing => if ing = [] then none else some ing) (pyStrip (' ' :: i))
    else none) = some i
  rw [if_pos rfl, pyStrip_space_ing hst]
  simp [hne]

theorem filterMap_bulletLines (is : List (List Char))
    (h : ∀ i ∈ is, i ≠ [] ∧ pyStrip i = i) :
    (((is.map (fun i => "- ".data ++ i)) ++ [[]]).map pyStrip).filterMap
      bulletLineIngredient = is := by
  induction is with
  | nil => rfl
  | cons i is' ih =>
    obtain ⟨hne, hst⟩ := h i (List.mem_cons_self _ _)
    have h' : ∀ j ∈ is', j ≠ [] ∧ pyStrip j = j :=
      fun j hj => h j (List.mem_cons_of_mem _ hj)
    have hmap : (((i :: is').map (fun i => "- ".data ++ i) ++ [[]]).map pyStrip)
        = ('-' :: ' ' :: i)
          :: ((is'.map (fun i => "- ".data ++ i) ++ [[]]).map pyStrip) := by
      simp only [List.map_cons, List.cons_append, List.nil_append]
      rw [pyStrip_bullet_line hst hne]
    rw [hmap, List.filterMap_cons, bulletLineIngredient_line hne hst, ih h']

/-- Re-parsing the bullet list recovers the ingredient list, element for
element and in order. -/
theorem parseBulletLines_bullets (is : List (List Char))
    (h : ∀ i ∈ is, i ≠ [] ∧ pyStrip i = i ∧ '\n' ∉ i) :
    parseBulletLines (ingredientBullets is) = is := by
  unfold parseBulletLines
  rw [pySplitNL_bullets is (fun i hi => (h i hi).2.2)]
  exact filterMap_bulletLines is (fun i hi => ⟨(h i hi).1, (h i hi).2.1⟩)

/-- The scanner fires at the Ingredients heading itself. -/
theorem findIngredientsSection_at (y : List Char) :
    findIngredientsSection ("## Ingredients\n\n".data ++ ('-' :: y))
      = some (takeUntilNHH ('-' :: y)) := rfl

/-- Re-parsing the rendered document's Ingredients section recovers the
ingredient list, provided the ingredients are non-empty, stripped,
newline-free strings and the text before the section contains no `##`. -/
theorem extract_ingredients_format (r : Recipe)
    (hne : r.ingredients ≠ [])
    (hing : ∀ i ∈ r.ingredients, i ≠ [] ∧ pyStrip i = i ∧ '\n' ∉ i)
    (hpre : hasDH (docPrefix r ++ ['#']) = false) :
    extract_ingredients_from_markdown (format r) = r.ingredients := by
  obtain ⟨i0, is', hi0⟩ : ∃ i0 is', r.ingredients = i0 :: is' := by
    cases hc : r.ingredients with
    | nil => exact absurd hc hne
    | cons a b => exact ⟨a, b, rfl⟩
  have hnlf : ∀ i ∈ r.ingredients, '\n' ∉ i := fun i hi => (hing i hi).2.2
  have hsplit : format r = docPrefix r
      ++ ("## Ingredients\n\n".data
        ++ (ingredientBullets r.ingredients
          ++ ('\n' :: '#' :: '#' ::
            (" Instructions\n\n".data
              ++ (numberLines 1 r.instructions ++ notesSection r.notes))))) := by
    have hlit : ("\n## Instructions\n\n".data : List Char)
        = '\n' :: '#' :: '#' :: " Instructions\n\n".data := rfl
    simp [format, format_body, docPrefix, hlit, List.append_assoc]
  have hcond : hasDH (docPrefix r
      ++ ("## Ingredients\n\n".data
        ++ (ingredientBullets r.ingredients
          ++ ('\n' :: '#' :: '#' ::
            (" Instructions\n\n".data
              ++ (numberLines 1 r.instructions
                ++ notesSection r.notes))))).take 1) = false := by
    have h1 : ("## Ingredients\n\n".data
        ++ (ingredientBullets r.ingredients
          ++ ('\n' :: '#' :: '#' ::
            (" Instructions\n\n".data
              ++ (numberLines 1 r.instructions
                ++ notesSection r.notes))))).take 1 = ['#'] := rfl
    rw [h1]
    exact hpre
  have hfind : findIngredientsSection (format r)
      = some (ingredientBullets r.ingredients) := by
    rw [hsplit, findIngredientsSection_append _ _ hcond]
    have hexp : ingredientBullets r.ingredients
        ++ ('\n' :: '#' :: '#' ::
          (" Instructions\n\n".data
            ++ (numberLines 1 r.instructions ++ notesSection r.notes)))
        = '-' :: (' ' :: ((i0 ++ ['\n'])
          ++ (ingredientBullets is'
            ++ ('\n' :: '#' :: '#' ::
              (" Instructions\n\n".data
                ++ (numberLines 1 r.instructions
                  ++ notesSection r.notes)))))) := by
      rw [hi0]
      simp [ingredientBullets, List.append_assoc]
    rw [hexp, findIngredientsSection_at, ← hexp,
      takeUntilNHH_bullets _ _ hnlf]
  rw [extract_ingredients_from_markdown, hfind]
  exact parseBulletLines_bullets _ hing

/-- Claim C9 (amended): for every recipe with a non-empty title whose
ingredients are non-empty, whitespace-trimmed, newline-free strings and whose
rendered text before the Ingredients section contains no `##` run, a
successful write of the rendered document makes the duplicate check for the
same title return true, and re-parsing the rendered document's Ingredients
section yields exactly the original ingredient list, element for element and
in order.  (The original claim, quantified over every recipe, fails: an
ingredient with leading or trailing whitespace is stripped by the re-parse —
see the counterexample.) -/
theorem C9_round_trip (r : Recipe)
    (_htitle : r.metadata.title ≠ [])
    (hne : r.ingredients ≠ [])
    (hing : ∀ i ∈ r.ingredients, i ≠ [] ∧ pyStrip i = i ∧ '\n' ∉ i)
    (hpre : hasDH (docPrefix r ++ ['#']) = false) :
    (∀ (v v' : Vault) (ow : Bool),
      vault_write v r.metadata.title (format r) ow = Except.ok v' →
      check_duplicate v' r.metadata.title = true) ∧
    extract_ingredients_from_markdown (format r) = r.ingredients := by
  constructor
  · intro v v' ow hw
    unfold vault_write at hw
    dsimp only [] at hw
    split at hw
    · exact absurd hw (by simp)
    · simp only [Except.ok.injEq] at hw
      subst hw
      simp [check_duplicate]
  · exact extract_ingredients_format r hne hing hpre

/-- The spec's own example recipe. -/
def testPastaRecipe : Recipe :=
  { metadata := { title := "Test Pasta".data
                  created := "2024-01-01T00:00:00".data }
    ingredients := ["200g pasta".data, "1 cup tomato sauce".data]
    instructions := ["Boil".data] }

/-- Witness for C9 at the spec's example recipe: the written document parses
back to the original ingredient list and the duplicate check sees the written
file. -/
theorem C9_round_trip_witness :
    extract_ingredients_from_markdown (format testPastaRecipe)
      = testPastaRecipe.ingredients ∧
    check_duplicate
        [(get_file_path "Test Pasta".data, format testPastaRecipe)]
        "Test Pasta".data = true := by
  have h := C9_round_trip testPastaRecipe (by decide) (by decide) (by decide)
    (by decide)
  exact ⟨h.2, h.1 [] _ false (by rfl)⟩

/-- A recipe whose single ingredient carries a leading space. -/
def recipePaddedIngredient : Recipe :=
  { metadata := { title := "T".data, created := "2024".data }
    ingredients := [" x".data]
    instructions := [] }

/-- Claim C9 is false as stated: an ingredient with leading whitespace is not
reproduced verbatim by the round trip — the re-parse strips each bullet line,
so `" x"` comes back as `"x"`. -/
theorem C9_counterexample :
    extract_ingredients_from_markdown (format recipePaddedIngredient)
      = ["x".data] ∧
    recipePaddedIngredient.ingredients = [" x".data] ∧
    extract_ingredients_from_markdown (format recipePaddedIngredient)
      ≠ recipePaddedIngredient.ingredients := by
  refine ⟨by decide, rfl, by decide⟩

/-- Witness for the amended C8 at a concrete input: the collapsed text of a
four-newline run contains no triple-newline run. -/
theorem C8_collapseNL_no_triple_newline_witness :
    ¬ (['\n', '\n', '\n'] <:+: collapseNL "a\n\n\n\nb".data) :=
  C8_collapseNL_no_triple_newline "a\n\n\n\nb".data
